import Mathlib

/-!
Verification of the `view` package of the Squirrel subdomain checker
(`src/view/view.go`), together with a spec-level model of the Dispatcher.

Go strings are modelled as lists of bytes (`List Nat`, each entry < 256),
so that UTF-8 validity and byte-level sanitisation can be expressed
faithfully.  Effectful functions are modelled as pure functions over an
explicit file-system map and over explicit event traces.
-/

namespace Squirrel

/-- UTF-8 encoding of a single character (standard RFC 3629 encoder);
used only to turn Lean string literals into the byte lists that model
Go string literals. -/
def utf8EncodeChar (c : Char) : List Nat :=
  let n := c.toNat
  if n < 0x80 then [n]
  else if n < 0x800 then [0xC0 + n / 64, 0x80 + n % 64]
  else if n < 0x10000 then [0xE0 + n / 4096, 0x80 + (n / 64) % 64, 0x80 + n % 64]
  else [0xF0 + n / 262144, 0x80 + (n / 4096) % 64, 0x80 + (n / 64) % 64, 0x80 + n % 64]

/-- Byte list of a Lean string literal (the model of a Go string literal). -/
def bs (s : String) : List Nat :=
  (s.data.map utf8EncodeChar).flatten

/- ## ShowProgress (view.go lines 50-72)

The progress goroutine is a loop over a `select` on two channels: the
500ms ticker and `doneChan`.  We model one execution of the goroutine as
a fold over a trace of events: `tick` (the ticker fired and the goroutine
woke up), `done` (a value/close was received on `doneChan`), and `inc`
(a worker performed `atomic.AddInt32` on the shared counter; the
reporter itself never generates this event).  The goroutine returning is
modelled by the `stopped` flag: once set, tick/done events are no-ops.
Prints are accumulated in `prints`; the float64 percentage
`float64(current) / float64(totalDomains) * 100` is modelled exactly
over `ℚ` and is computed only when a print record is constructed. -/

/-- One record printed by the progress goroutine
(`fmt.Printf` of percent, current, total). -/
structure ProgressPrint where
  percent : ℚ
  current : Nat
  total : Nat
deriving DecidableEq

/-- Events observed by the progress goroutine plus worker increments of
the shared counter. -/
inductive RunEv where
  | inc : RunEv
  | tick : RunEv
  | done : RunEv
deriving DecidableEq

/-- Shared state: the atomic `processed` counter, whether the goroutine
has returned, and the prints it has emitted so far. -/
structure SysState where
  processed : Nat
  stopped : Bool
  prints : List ProgressPrint
deriving DecidableEq

/-- One step of the system of view.go lines 57-70: `inc` is a worker's
atomic increment; `tick` runs the ticker branch (`atomic.LoadInt32`,
the `current >= int32(totalDomains)` early return, else the print);
`done` runs the `<-doneChan` branch (return).  A returned goroutine
(`stopped = true`) reacts to no further tick/done event. -/
def showProgressStep (total : Nat) (s : SysState) : RunEv → SysState
  | RunEv.inc => { s with processed := s.processed + 1 }
  | RunEv.tick =>
    if s.stopped then s
    else
      let current := s.processed
      if total ≤ current then { s with stopped := true }
      else { s with prints :=
        s.prints ++ [⟨(current : ℚ) / (total : ℚ) * 100, current, total⟩] }
  | RunEv.done =>
    if s.stopped then s else { s with stopped := true }

/-- The whole run: fold `showProgressStep` over an event trace. -/
def showProgressRun (total : Nat) (s : SysState) (evs : List RunEv) : SysState :=
  evs.foldl (showProgressStep total) s

/-- Number of worker increments in a trace. -/
def countInc : List RunEv → Nat
  | [] => 0
  | RunEv.inc :: r => countInc r + 1
  | RunEv.tick :: r => countInc r
  | RunEv.done :: r => countInc r

/-- Helper: a returned goroutine emits no further print, and stays
returned, whatever the rest of the trace is. -/
theorem showProgressRun_stopped (total : Nat) (s : SysState) (evs : List RunEv)
    (h : s.stopped = true) :
    (showProgressRun total s evs).prints = s.prints ∧
    (showProgressRun total s evs).stopped = true := by
  induction evs generalizing s with
  | nil => exact ⟨rfl, h⟩
  | cons e rest ih =>
    cases e with
    | inc =>
      have := ih { s with processed := s.processed + 1 } h
      simpa [showProgressRun, showProgressStep] using this
    | tick =>
      have := ih s h
      simpa [showProgressRun, showProgressStep, h] using this
    | done =>
      have := ih s h
      simpa [showProgressRun, showProgressStep, h] using this

/-- Claim C2: the progress goroutine terminates at the first event that
is either a sampling tick observing `processed >= totalDomains` or a
`doneChan` signal; that event produces no print, and no print is
produced by any later event of the trace. -/
theorem showProgress_stops_at_terminating_event
    (total : Nat) (s : SysState) (e : RunEv) (rest : List RunEv)
    (hterm : e = RunEv.done ∨ (e = RunEv.tick ∧ total ≤ s.processed)) :
    (showProgressRun total (showProgressStep total s e) rest).prints = s.prints ∧
    (showProgressRun total (showProgressStep total s e) rest).stopped = true := by
  have hstep : (showProgressStep total s e).prints = s.prints ∧
      (showProgressStep total s e).stopped = true := by
    rcases hterm with h | ⟨h, hle⟩
    · subst h
      cases hs : s.stopped <;> simp [showProgressStep, hs]
    · subst h
      cases hs : s.stopped <;> simp [showProgressStep, hs, hle]
  have := showProgressRun_stopped total (showProgressStep total s e) rest hstep.2
  exact ⟨hstep.1 ▸ this.1, this.2⟩

/-- Witness for C2: a concrete trace where the counter (5) has reached
the total (1) at a tick; the tick and the rest of the trace print
nothing. -/
theorem showProgress_stops_witness :
    (showProgressRun 1 (showProgressStep 1 ⟨5, false, []⟩ RunEv.tick)
      [RunEv.tick, RunEv.inc, RunEv.done]).prints = [] ∧
    (showProgressRun 1 (showProgressStep 1 ⟨5, false, []⟩ RunEv.tick)
      [RunEv.tick, RunEv.inc, RunEv.done]).stopped = true :=
  showProgress_stops_at_terminating_event 1 ⟨5, false, []⟩ RunEv.tick
    [RunEv.tick, RunEv.inc, RunEv.done] (Or.inr ⟨rfl, by decide⟩)

/-- Helper: with `totalDomains = 0` the early-return check
`current >= int32(totalDomains)` succeeds at every tick, so no trace
ever produces a print. -/
theorem showProgressRun_zero_prints (s : SysState) (evs : List RunEv) :
    (showProgressRun 0 s evs).prints = s.prints := by
  induction evs generalizing s with
  | nil => rfl
  | cons ev rest ih =>
    cases ev with
    | inc =>
      have := ih { s with processed := s.processed + 1 }
      simpa [showProgressRun, showProgressStep] using this
    | tick =>
      cases h : s.stopped
      · have h2 := ih { s with stopped := true }
        simpa [showProgressRun, showProgressStep, h, Nat.zero_le] using h2
      · have h2 := ih s
        simpa [showProgressRun, showProgressStep, h] using h2
    | done =>
      cases h : s.stopped
      · have h2 := ih { s with stopped := true }
        simpa [showProgressRun, showProgressStep, h] using h2
      · have h2 := ih s
        simpa [showProgressRun, showProgressStep, h] using h2

/-- Claim C3: with `totalDomains = 0` the goroutine never prints (over
any trace), and its first wake-up — whether a tick or a done signal —
returns immediately without printing: since the percentage division is
evaluated only inside a print record, the division by `totalDomains`
is never evaluated. -/
theorem showProgress_zero_total (s : SysState) (evs : List RunEv) (e : RunEv)
    (hs : s.stopped = false) (he : e ≠ RunEv.inc) :
    (showProgressRun 0 s evs).prints = s.prints ∧
    (showProgressStep 0 s e).stopped = true ∧
    (showProgressStep 0 s e).prints = s.prints := by
  refine ⟨showProgressRun_zero_prints s evs, ?_, ?_⟩
  · cases e with
    | inc => exact absurd rfl he
    | tick => simp [showProgressStep, hs, Nat.zero_le]
    | done => simp [showProgressStep, hs]
  · cases e with
    | inc => exact absurd rfl he
    | tick => simp [showProgressStep, hs, Nat.zero_le]
    | done => simp [showProgressStep, hs]

/-- Witness for C3: a concrete zero-total run with a worker increment in
the trace; the first tick returns at once and nothing is printed. -/
theorem showProgress_zero_total_witness :
    (showProgressRun 0 ⟨0, false, []⟩ [RunEv.inc, RunEv.tick, RunEv.done]).prints = [] ∧
    (showProgressStep 0 ⟨0, false, []⟩ RunEv.tick).stopped = true ∧
    (showProgressStep 0 ⟨0, false, []⟩ RunEv.tick).prints = [] :=
  showProgress_zero_total ⟨0, false, []⟩ [RunEv.inc, RunEv.tick, RunEv.done]
    RunEv.tick rfl (by decide)

/-- Claim C5: the progress reporter never writes the shared counter.
Over any trace the counter's final value is its initial value plus the
number of worker increments: the reporter's own events (`tick`, `done`)
contribute nothing, since the ticker branch only performs
`atomic.LoadInt32`. -/
theorem showProgress_counter_frame (total : Nat) (s : SysState) (evs : List RunEv) :
    (showProgressRun total s evs).processed = s.processed + countInc evs := by
  induction evs generalizing s with
  | nil => rfl
  | cons e rest ih =>
    cases e with
    | inc =>
      have := ih { s with processed := s.processed + 1 }
      simp only [showProgressRun, List.foldl_cons, showProgressStep] at this ⊢
      rw [this]
      simp [countInc]
      omega
    | tick =>
      have := ih (showProgressStep total s RunEv.tick)
      simp only [showProgressRun, List.foldl_cons] at this ⊢
      rw [this]
      have hp : (showProgressStep total s RunEv.tick).processed = s.processed := by
        cases h : s.stopped
        · by_cases h2 : total ≤ s.processed <;> simp [showProgressStep, h, h2]
        · simp [showProgressStep, h]
      rw [hp]
      rfl
    | done =>
      have := ih (showProgressStep total s RunEv.done)
      simp only [showProgressRun, List.foldl_cons] at this ⊢
      rw [this]
      have hp : (showProgressStep total s RunEv.done).processed = s.processed := by
        cases h : s.stopped <;> simp [showProgressStep, h]
      rw [hp]
      rfl

/- ## Byte-level string utilities used by the report writers -/

/-- Go `utf8.ValidString` over the byte list: RFC 3629 validation with
Go's accept ranges (rejects stray continuation bytes, overlong
encodings, surrogates and code points above U+10FFFF). -/
def utf8Valid : List Nat → Bool
  | [] => true
  | b :: rest =>
    if b ≤ 0x7F then utf8Valid rest
    else if b < 0xC2 then false
    else if b ≤ 0xDF then
      match rest with
      | [] => false
      | b1 :: r =>
        if 0x80 ≤ b1 ∧ b1 ≤ 0xBF then utf8Valid r else false
    else if b ≤ 0xEF then
      match rest with
      | b1 :: b2 :: r =>
        let lo := if b = 0xE0 then 0xA0 else 0x80
        let hi := if b = 0xED then 0x9F else 0xBF
        if (lo ≤ b1 ∧ b1 ≤ hi) ∧ (0x80 ≤ b2 ∧ b2 ≤ 0xBF) then utf8Valid r else false
      | _ => false
    else if b ≤ 0xF4 then
      match rest with
      | b1 :: b2 :: b3 :: r =>
        let lo := if b = 0xF0 then 0x90 else 0x80
        let hi := if b = 0xF4 then 0x8F else 0xBF
        if (lo ≤ b1 ∧ b1 ≤ hi) ∧ (0x80 ≤ b2 ∧ b2 ≤ 0xBF) ∧ (0x80 ≤ b3 ∧ b3 ≤ 0xBF) then
          utf8Valid r
        else false
      | _ => false
    else false

/-- Go `strings.ReplaceAll` when both the old and the new string are a
single byte: every occurrence of byte `a` becomes byte `c`. -/
def replaceAllByte (s : List Nat) (a c : Nat) : List Nat :=
  s.map (fun x => if x = a then c else x)

/-- Go `strings.ToLower`, restricted to ASCII case folding (the only
case the file extensions compared against `.png`/`.gif`/`.webp`
exercise). -/
def toLowerByte (b : Nat) : Nat := if 65 ≤ b ∧ b ≤ 90 then b + 32 else b

/-- ASCII lowercasing of a byte string. -/
def toLowerB (s : List Nat) : List Nat := s.map toLowerByte

/- ## path/filepath models (slash-separated, as on Unix) -/

/-- Split a byte list on a separator byte (`strings.Split`). -/
def splitByte (sep : Nat) : List Nat → List (List Nat)
  | [] => [[]]
  | b :: rest =>
    match splitByte sep rest with
    | [] => [[]]
    | h :: t => if b = sep then [] :: h :: t else (b :: h) :: t

/-- Whether a path begins with the separator (rooted path). -/
def isRooted : List Nat → Bool
  | 47 :: _ => true
  | _ => false

/-- The stack loop of Go `path/filepath.Clean`: drop empty and `.`
components, let `..` pop a previous component (kept at the start of a
relative path, dropped at the root of a rooted path). -/
def cleanComps (rooted : Bool) : List (List Nat) → List (List Nat) → List (List Nat)
  | stack, [] => stack.reverse
  | stack, c :: rest =>
    if c = [] ∨ c = [46] then cleanComps rooted stack rest
    else if c = [46, 46] then
      match stack with
      | top :: s2 =>
        if top = [46, 46] then cleanComps rooted ([46, 46] :: top :: s2) rest
        else cleanComps rooted s2 rest
      | [] => if rooted then cleanComps rooted [] rest else cleanComps rooted [[46, 46]] rest
    else cleanComps rooted (c :: stack) rest

/-- Go `filepath.Clean` for slash-separated paths. -/
def pathClean (p : List Nat) : List Nat :=
  if p = [] then [46]
  else
    let rooted := isRooted p
    let comps := cleanComps rooted [] (splitByte 47 p)
    let out := List.intercalate [47] comps
    if rooted then (if out = [] then [47] else 47 :: out)
    else (if out = [] then [46] else out)

/-- Go `filepath.Join` of two elements: empty elements are skipped and
the slash-joined rest is passed through `Clean`; all-empty input yields
the empty path. -/
def filepathJoin (a b : List Nat) : List Nat :=
  if a = [] ∧ b = [] then []
  else if a = [] then pathClean b
  else if b = [] then pathClean a
  else pathClean (a ++ 47 :: b)

/-- Drop trailing separator bytes. -/
def dropTrailingSlashes (p : List Nat) : List Nat :=
  (p.reverse.dropWhile (fun b => b == 47)).reverse

/-- The suffix after the last separator byte. -/
def afterLastSlash (p : List Nat) : List Nat :=
  (p.reverse.takeWhile (fun b => !(b == 47))).reverse

/-- Go `filepath.Base`: `"."` for the empty path, `"/"` when the path
is all separators, otherwise the last component with trailing
separators removed. -/
def baseOf (p : List Nat) : List Nat :=
  if p = [] then [46]
  else
    let q := dropTrailingSlashes p
    if q = [] then [47]
    else afterLastSlash q

/-- Scan of `filepath.Ext` from the end of the path: stop at a
separator, return from the last dot onwards. -/
def extOfAux : List Nat → List Nat → Option (List Nat)
  | [], _ => none
  | b :: rest, acc =>
    if b = 47 then none
    else if b = 46 then some (46 :: acc)
    else extOfAux rest (b :: acc)

/-- Go `filepath.Ext`: the suffix from the final dot in the final
component, empty if there is none. -/
def extOf (p : List Nat) : List Nat := (extOfAux p.reverse []).getD []

/- ## base64 (encoding/base64, StdEncoding) -/

/-- Standard base64 alphabet. -/
def base64AlphabetStr : String :=
  "ABCDEFGHIJKLMNOPQRSTUVWXYZabcdefghijklmnopqrstuvwxyz0123456789+/"

/-- Standard base64 alphabet as bytes. -/
def base64Alphabet : List Nat := bs base64AlphabetStr

/-- Byte of the base64 digit with the given 6-bit value. -/
def b64char (n : Nat) : Nat := base64Alphabet.getD n 65

/-- Go `base64.StdEncoding.EncodeToString`: 3 input bytes become 4
digits; a 1- or 2-byte tail is padded with `=` (byte 61). -/
def base64Encode : List Nat → List Nat
  | [] => []
  | [a] => [b64char (a / 4), b64char (a % 4 * 16), 61, 61]
  | [a, b] => [b64char (a / 4), b64char (a % 4 * 16 + b / 16), b64char (b % 16 * 4), 61]
  | a :: b :: c :: rest =>
    [b64char (a / 4), b64char (a % 4 * 16 + b / 16), b64char (b % 16 * 4 + c / 64),
     b64char (c % 64)] ++ base64Encode rest

/- ## screenshotToDataURI (view.go lines 25-47) -/

/-- Literal used by screenshotToDataURI. -/
def dotStr : String := "."

/-- Literal used by screenshotToDataURI. -/
def dataColonStr : String := "data:"

/-- Literal used by screenshotToDataURI. -/
def base64CommaStr : String := ";base64,"

/-- Literal used by screenshotToDataURI. -/
def jpegMimeStr : String := "image/jpeg"

/-- Literal used by screenshotToDataURI. -/
def pngMimeStr : String := "image/png"

/-- Literal used by screenshotToDataURI. -/
def gifMimeStr : String := "image/gif"

/-- Literal used by screenshotToDataURI. -/
def webpMimeStr : String := "image/webp"

/-- Literal used by screenshotToDataURI. -/
def pngExtStr : String := ".png"

/-- Literal used by screenshotToDataURI. -/
def gifExtStr : String := ".gif"

/-- Literal used by screenshotToDataURI. -/
def webpExtStr : String := ".webp"

/-- The mime-type selection of view.go lines 37-45: lowercased
`filepath.Ext`, mapping `.png`/`.gif`/`.webp` to their image types and
everything else to `image/jpeg`. -/
def mimeType (screenshotPath : List Nat) : List Nat :=
  let ext := toLowerB (extOf screenshotPath)
  if ext = bs pngExtStr then bs pngMimeStr
  else if ext = bs gifExtStr then bs gifMimeStr
  else if ext = bs webpExtStr then bs webpMimeStr
  else bs jpegMimeStr

/-- view.go lines 25-47.  The file system is modelled as a map from
path to optional contents (`os.ReadFile` succeeding iff the map returns
`some`).  Empty path returns the empty string; a failed read is retried
at `filepath.Join(".", path)`; on success the data URI is assembled
from the mime type of the original path and the base64 payload. -/
def screenshotToDataURI (fs : List Nat → Option (List Nat))
    (screenshotPath : List Nat) : List Nat :=
  if screenshotPath = [] then []
  else
    match fs screenshotPath with
    | some data =>
      bs dataColonStr ++ mimeType screenshotPath ++ bs base64CommaStr ++ base64Encode data
    | none =>
      match fs (filepathJoin (bs dotStr) screenshotPath) with
      | some data =>
        bs dataColonStr ++ mimeType screenshotPath ++ bs base64CommaStr ++ base64Encode data
      | none => []

/-- Claim C10: screenshotToDataURI returns the empty string on an empty
path and when both reads (the path itself, then `filepath.Join(".",
path)`) fail; otherwise it returns `"data:" + mime + ";base64," +
payload`, with the mime type selected from the lowercased file
extension (`.png`, `.gif`, `.webp` mapped to their types, anything else
defaulting to `image/jpeg`). -/
theorem screenshotToDataURI_spec (fs : List Nat → Option (List Nat)) (p data : List Nat) :
    screenshotToDataURI fs [] = []
    ∧ (fs p = none → fs (filepathJoin (bs dotStr) p) = none →
        screenshotToDataURI fs p = [])
    ∧ (p ≠ [] → fs p = some data →
        screenshotToDataURI fs p =
          bs dataColonStr ++ mimeType p ++ bs base64CommaStr ++ base64Encode data)
    ∧ (p ≠ [] → fs p = none → fs (filepathJoin (bs dotStr) p) = some data →
        screenshotToDataURI fs p =
          bs dataColonStr ++ mimeType p ++ bs base64CommaStr ++ base64Encode data)
    ∧ (toLowerB (extOf p) = bs pngExtStr → mimeType p = bs pngMimeStr)
    ∧ (toLowerB (extOf p) = bs gifExtStr → mimeType p = bs gifMimeStr)
    ∧ (toLowerB (extOf p) = bs webpExtStr → mimeType p = bs webpMimeStr)
    ∧ (toLowerB (extOf p) ≠ bs pngExtStr → toLowerB (extOf p) ≠ bs gifExtStr →
        toLowerB (extOf p) ≠ bs webpExtStr → mimeType p = bs jpegMimeStr) := by
  refine ⟨rfl, ?_, ?_, ?_, ?_, ?_, ?_, ?_⟩
  · intro h1 h2
    by_cases hp : p = []
    · simp [screenshotToDataURI, hp]
    · simp [screenshotToDataURI, hp, h1, h2]
  · intro hp h1
    simp [screenshotToDataURI, hp, h1]
  · intro hp h1 h2
    simp [screenshotToDataURI, hp, h1, h2]
  · intro h
    simp [mimeType, h]
  · intro h
    rw [mimeType]
    simp only [h]
    rw [if_neg (by decide)]
    simp
  · intro h
    rw [mimeType]
    simp only [h]
    rw [if_neg (by decide), if_neg (by decide)]
    simp
  · intro h1 h2 h3
    rw [mimeType]
    rw [if_neg h1, if_neg h2, if_neg h3]

/-- Literal used by the C10 witness. -/
def aPngStr : String := "a.png"

/-- Witness for C10: a concrete file system holding `a.png`; the result
is the data URI built from the png mime type. -/
theorem screenshotToDataURI_witness :
    screenshotToDataURI (fun q => if q = bs aPngStr then some [104, 105] else none)
      (bs aPngStr) =
      bs dataColonStr ++ mimeType (bs aPngStr) ++ bs base64CommaStr ++
        base64Encode [104, 105]
    ∧ mimeType (bs aPngStr) = bs pngMimeStr :=
  ⟨(screenshotToDataURI_spec (fun q => if q = bs aPngStr then some [104, 105] else none)
      (bs aPngStr) [104, 105]).2.2.1 (by decide) (by decide),
   (screenshotToDataURI_spec (fun _ => none) (bs aPngStr) []).2.2.2.2.1 (by decide)⟩

/- ## Data model (checker.Result as consumed by view.go, and the
template structures defined in view.go lines 387-410) -/

/-- Page information attached to an alive result (`checker.PageInfo`):
view.go reads only its `Type` field. -/
structure PageInfo where
  type : List Nat
  title : List Nat
deriving DecidableEq

/-- One probe result (`checker.Result`), with the fields view.go reads.
`ResponseTime` is a Go `time.Duration`, carried in nanoseconds. -/
structure Result where
  domain : List Nat
  alive : Bool
  status : Int
  statusText : List Nat
  responseTimeNs : Nat
  pageInfo : Option PageInfo
  title : List Nat
  screenshot : List Nat
  message : List Nat
deriving DecidableEq

/-- Go `time.Duration.Milliseconds()`: integer division of the
nanosecond count. -/
def goMilliseconds (ns : Nat) : Nat := ns / 1000000

/-- Literal: the CSV header of SaveResultsToFile (without the trailing
newline byte, which is appended separately). -/
def csvHeaderStr : String := "域名,状态,状态码,响应时间(毫秒),页面类型,页面标题,消息"

/-- Literal: fraction digits printed by `%.2f` for an integral value. -/
def dot00Str : String := ".00"

/-- Literal used by the writers. -/
def httpStr : String := "http://"

/-- Literal used by the writers. -/
def httpsStr : String := "https://"

/-- Literal used by the writers. -/
def statusAliveStr : String := "status-alive"

/-- Literal used by the writers. -/
def statusDeadStr : String := "status-dead"

/-- Literal used by SaveResultsToExcel. -/
def excelAliveStr : String := "可访问"

/-- Literal used by SaveResultsToExcel. -/
def excelDeadStr : String := "无法访问"

/-- Literal used by SaveResultsToSimpleHTML. -/
def htmlAliveStr : String := "alive"

/-- Literal used by SaveResultsToSimpleHTML. -/
def htmlDeadStr : String := "dead"

/-- Literal used by SaveResultsToSimpleHTML. -/
def dashStr : String := "-"

/-- Literal used by the writers. -/
def screenshotsStr : String := "screenshots"

/-- Literal used by SaveResultsToExcel. -/
def screenshotsSlashStr : String := "screenshots/"

/-- `%d` of an integer, as bytes. -/
def intBytes (i : Int) : List Nat := bs (toString i)

/-- `%.2f` of `float64(ms)` for an integral millisecond count: the
decimal digits followed by `.00`. -/
def formatFloat2 (ms : Nat) : List Nat := bs (toString ms) ++ bs dot00Str

/-- The title re-encoding step shared by SaveResultsToExcel (lines
263-274) and SaveResultsToSimpleHTML (lines 467-478): a non-empty title
that is not valid UTF-8 is passed through the GBK decoder (`decode`
models `simplifiedchinese.GBK.NewDecoder()` read by `io.ReadAll`); on
decoder success the decoded bytes replace the title, on failure the
original title is kept. -/
def goDecodeTitle (decode : List Nat → Option (List Nat)) (title : List Nat) : List Nat :=
  if title = [] then title
  else if utf8Valid title then title
  else
    match decode title with
    | some d => d
    | none => title

/-- Page type as rendered by SaveResultsToFile (lines 117-121): empty
string when `PageInfo` is nil. -/
def filePageType (r : Result) : List Nat :=
  match r.pageInfo with
  | some info => info.type
  | none => []

/-- Page type as rendered by SaveResultsToExcel (lines 217-220): empty
string when `PageInfo` is nil. -/
def excelPageType (r : Result) : List Nat :=
  match r.pageInfo with
  | some info => info.type
  | none => []

/-- Page type as rendered by SaveResultsToSimpleHTML (lines 449-452):
`"-"` when `PageInfo` is nil. -/
def htmlPageType (r : Result) : List Nat :=
  match r.pageInfo with
  | some info => info.type
  | none => bs dashStr

/- ## SaveResultsToFile (view.go lines 106-134) -/

/-- The CSV header chunk (first `fmt.Fprintf`). -/
def csvHeader : List Nat := bs csvHeaderStr ++ [10]

/-- One CSV data row (the per-result `fmt.Fprintf`): comma-separated
fields, commas inside Title and Message replaced by spaces, trailing
newline. -/
def csvRow (r : Result) : List Nat :=
  r.domain ++ [44] ++ r.statusText ++ [44] ++ intBytes r.status ++ [44]
    ++ formatFloat2 (goMilliseconds r.responseTimeNs) ++ [44]
    ++ filePageType r ++ [44]
    ++ replaceAllByte r.title 44 32 ++ [44]
    ++ replaceAllByte r.message 44 32 ++ [10]

/-- SaveResultsToFile, modelled as the sequence of chunks written to
the created file: the header, then one row per result produced by the
loop, in input order, with no filtering. -/
def saveResultsToFile (results : List Result) (_filename : List Nat) : List (List Nat) :=
  results.foldl (fun acc r => acc ++ [csvRow r]) [csvHeader]

/- ## Template data built by the Excel and HTML writers -/

/-- view.go lines 397-410. -/
structure TemplateResult where
  domain : List Nat
  domainLink : List Nat
  statusClass : List Nat
  domainStatus : List Nat
  statusText : List Nat
  status : Int
  responseTime : ℚ
  pageType : List Nat
  title : List Nat
  message : List Nat
  screenshot : List Nat
  alive : Bool
deriving DecidableEq

/-- view.go lines 388-394. -/
structure TemplateData where
  totalDomains : Nat
  aliveDomains : Nat
  deadDomains : Nat
  reportTime : List Nat
  results : List TemplateResult
deriving DecidableEq

/-- The domain-link rule shared by both writers: prepend `http://`
unless the domain already carries an `http://` or `https://` scheme. -/
def domainLinkOf (d : List Nat) : List Nat :=
  if !((bs httpStr).isPrefixOf d) && !((bs httpsStr).isPrefixOf d) then bs httpStr ++ d
  else d

/-- Screenshot path as computed by SaveResultsToExcel (lines 250-261):
relative `screenshots/<base>` with backslashes turned into slashes and
the `screenshots/` prefix enforced. -/
def excelScreenshotPath (sc : List Nat) : List Nat :=
  if sc = [] then []
  else
    let s1 := filepathJoin (bs screenshotsStr) (baseOf sc)
    let s2 := replaceAllByte s1 92 47
    if (bs screenshotsSlashStr).isPrefixOf s2 then s2
    else bs screenshotsSlashStr ++ baseOf s2

/-- Screenshot value as computed by SaveResultsToSimpleHTML (lines
460-465): the data URI of `screenshots/<base>`. -/
def htmlScreenshotPath (fs : List Nat → Option (List Nat)) (sc : List Nat) : List Nat :=
  if sc = [] then []
  else screenshotToDataURI fs (filepathJoin (bs screenshotsStr) (baseOf sc))

/-- The TemplateResult appended per passing row by SaveResultsToExcel
(lines 285-298). -/
def excelRow (decode : List Nat → Option (List Nat)) (r : Result) : TemplateResult :=
  { domain := r.domain
    domainLink := domainLinkOf r.domain
    statusClass := if r.alive then bs statusAliveStr else bs statusDeadStr
    domainStatus := if r.alive then bs excelAliveStr else bs excelDeadStr
    statusText := r.statusText
    status := r.status
    responseTime := (r.responseTimeNs : ℚ) / 1000000000 * 1000
    pageType := excelPageType r
    title := goDecodeTitle decode r.title
    message := r.message
    screenshot := excelScreenshotPath r.screenshot
    alive := r.alive }

/-- The TemplateResult appended per passing row by
SaveResultsToSimpleHTML (lines 480-493). -/
def htmlRow (decode fs : List Nat → Option (List Nat)) (r : Result) : TemplateResult :=
  { domain := r.domain
    domainLink := domainLinkOf r.domain
    statusClass := if r.alive then bs statusAliveStr else bs statusDeadStr
    domainStatus := if r.alive then bs htmlAliveStr else bs htmlDeadStr
    statusText := r.statusText
    status := r.status
    responseTime := (r.responseTimeNs : ℚ) / 1000000000 * 1000
    pageType := htmlPageType r
    title := goDecodeTitle decode r.title
    message := r.message
    screenshot := htmlScreenshotPath fs r.screenshot
    alive := r.alive }

/-- A row passes the writers' filter unless `onlyAlive` is set and the
result is not alive (the `continue` in both loops). -/
def passFilter (onlyAlive : Bool) (r : Result) : Bool := !(onlyAlive && !r.alive)

/-- One iteration of the SaveResultsToExcel loop (lines 204-298),
restricted to its effect on the TemplateData. -/
def excelStep (decode : List Nat → Option (List Nat)) (onlyAlive : Bool)
    (d : TemplateData) (r : Result) : TemplateData :=
  if onlyAlive && !r.alive then d
  else
    let d1 := if r.alive then { d with aliveDomains := d.aliveDomains + 1 }
              else { d with deadDomains := d.deadDomains + 1 }
    { d1 with results := d1.results ++ [excelRow decode r] }

/-- The TemplateData computed by SaveResultsToExcel (lines 196-298):
`TotalDomains` is fixed to the length of the full input list before the
loop; alive/dead tallies and the rows come from the filtered loop. -/
def excelTemplateData (decode : List Nat → Option (List Nat)) (results : List Result)
    (onlyAlive : Bool) (now : List Nat) : TemplateData :=
  results.foldl (excelStep decode onlyAlive)
    { totalDomains := results.length, aliveDomains := 0, deadDomains := 0,
      reportTime := now, results := [] }

/-- One iteration of the SaveResultsToSimpleHTML loop (lines 430-494),
restricted to its effect on the TemplateData. -/
def htmlStep (decode fs : List Nat → Option (List Nat)) (onlyAlive : Bool)
    (d : TemplateData) (r : Result) : TemplateData :=
  if onlyAlive && !r.alive then d
  else
    let d1 := { d with totalDomains := d.totalDomains + 1 }
    let d2 := if r.alive then { d1 with aliveDomains := d1.aliveDomains + 1 } else d1
    { d2 with results := d2.results ++ [htmlRow decode fs r] }

/-- The TemplateData computed by SaveResultsToSimpleHTML (lines
424-495): all three counters are computed over the filtered rows, with
`DeadDomains` set to `TotalDomains - AliveDomains` after the loop. -/
def htmlTemplateData (decode fs : List Nat → Option (List Nat)) (results : List Result)
    (onlyAlive : Bool) (now : List Nat) : TemplateData :=
  let d := results.foldl (htmlStep decode fs onlyAlive)
    { totalDomains := 0, aliveDomains := 0, deadDomains := 0,
      reportTime := now, results := [] }
  { d with deadDomains := d.totalDomains - d.aliveDomains }

/-- The observable output of SaveResultsToSimpleHTML: the created file
(by name), the UTF-8 BOM written first, and the TemplateData handed to
the parsed template. -/
structure HTMLReport where
  filename : List Nat
  bom : List Nat
  data : TemplateData
deriving DecidableEq

/-- SaveResultsToSimpleHTML (view.go lines 413-509) as a pure function
of its inputs (plus the GBK decoder, the file system and the clock). -/
def saveResultsToSimpleHTML (decode fs : List Nat → Option (List Nat))
    (results : List Result) (filename : List Nat) (onlyAlive : Bool)
    (now : List Nat) : HTMLReport :=
  { filename := filename
    bom := [0xEF, 0xBB, 0xBF]
    data := htmlTemplateData decode fs results onlyAlive now }

/-- SaveResultsToHTML (view.go lines 512-514): a direct delegation to
SaveResultsToSimpleHTML. -/
def saveResultsToHTML (decode fs : List Nat → Option (List Nat))
    (results : List Result) (filename : List Nat) (onlyAlive : Bool)
    (now : List Nat) : HTMLReport :=
  saveResultsToSimpleHTML decode fs results filename onlyAlive now

/- ## Helper lemmas about the loops -/

/-- A fold that appends one element per iteration is the initial list
followed by the map, in input order. -/
theorem foldl_push_eq_map {α β : Type} (f : α → β) (init : List β) (l : List α) :
    l.foldl (fun acc r => acc ++ [f r]) init = init ++ l.map f := by
  induction l generalizing init with
  | nil => simp
  | cons x xs ih => simp [ih]

/-- A conjunctive filter keeps no more elements than the left filter
alone. -/
theorem length_filter_and_le {α : Type} (p q : α → Bool) (l : List α) :
    (l.filter (fun x => p x && q x)).length ≤ (l.filter p).length := by
  induction l with
  | nil => simp
  | cons x xs ih =>
    by_cases hp : p x = true
    · by_cases hq : q x = true <;> simp [List.filter_cons, hp, hq] <;> omega
    · simp only [List.filter_cons]
      have : (p x && q x) = false := by
        cases hpx : p x
        · rfl
        · exact absurd hpx hp
      simp [this, hp]
      omega

/-- Filtering on a predicate and on its negation partitions the list. -/
theorem length_filter_add_not {α : Type} (p : α → Bool) (l : List α) :
    (l.filter p).length + (l.filter (fun x => !(p x))).length = l.length := by
  induction l with
  | nil => rfl
  | cons x xs ih =>
    by_cases hp : p x = true <;> simp [List.filter_cons, hp] <;> omega

/-- The Excel loop body never changes TotalDomains. -/
theorem excelStep_totalDomains (decode : List Nat → Option (List Nat)) (onlyAlive : Bool)
    (d : TemplateData) (r : Result) :
    (excelStep decode onlyAlive d r).totalDomains = d.totalDomains := by
  cases hr : r.alive <;> cases ho : onlyAlive <;> simp [excelStep, hr, ho]

/-- The Excel loop body adds one to AliveDomains exactly on a passing
alive row. -/
theorem excelStep_aliveDomains (decode : List Nat → Option (List Nat)) (onlyAlive : Bool)
    (d : TemplateData) (r : Result) :
    (excelStep decode onlyAlive d r).aliveDomains
      = d.aliveDomains + (if passFilter onlyAlive r && r.alive then 1 else 0) := by
  cases hr : r.alive <;> cases ho : onlyAlive <;> simp [excelStep, passFilter, hr, ho]

/-- The Excel loop body adds one to DeadDomains exactly on a passing
dead row. -/
theorem excelStep_deadDomains (decode : List Nat → Option (List Nat)) (onlyAlive : Bool)
    (d : TemplateData) (r : Result) :
    (excelStep decode onlyAlive d r).deadDomains
      = d.deadDomains + (if passFilter onlyAlive r && !r.alive then 1 else 0) := by
  cases hr : r.alive <;> cases ho : onlyAlive <;> simp [excelStep, passFilter, hr, ho]

/-- The Excel loop body appends exactly one row per passing result. -/
theorem excelStep_resultsLength (decode : List Nat → Option (List Nat)) (onlyAlive : Bool)
    (d : TemplateData) (r : Result) :
    (excelStep decode onlyAlive d r).results.length
      = d.results.length + (if passFilter onlyAlive r then 1 else 0) := by
  cases hr : r.alive <;> cases ho : onlyAlive <;> simp [excelStep, passFilter, hr, ho]

/-- Aggregate effect of the Excel loop on the TemplateData counters. -/
theorem excelFold_stats (decode : List Nat → Option (List Nat)) (onlyAlive : Bool)
    (rs : List Result) (d : TemplateData) :
    ((rs.foldl (excelStep decode onlyAlive) d).totalDomains = d.totalDomains)
    ∧ ((rs.foldl (excelStep decode onlyAlive) d).aliveDomains
        = d.aliveDomains + (rs.filter (fun r => passFilter onlyAlive r && r.alive)).length)
    ∧ ((rs.foldl (excelStep decode onlyAlive) d).deadDomains
        = d.deadDomains + (rs.filter (fun r => passFilter onlyAlive r && !r.alive)).length)
    ∧ ((rs.foldl (excelStep decode onlyAlive) d).results.length
        = d.results.length + (rs.filter (fun r => passFilter onlyAlive r)).length) := by
  induction rs generalizing d with
  | nil => simp
  | cons r rs ih =>
    obtain ⟨h1, h2, h3, h4⟩ := ih (excelStep decode onlyAlive d r)
    simp only [List.foldl_cons, List.filter_cons]
    refine ⟨?_, ?_, ?_, ?_⟩
    · rw [h1, excelStep_totalDomains]
    · rw [h2, excelStep_aliveDomains]
      by_cases hc : (passFilter onlyAlive r && r.alive) = true <;> simp [hc] <;> omega
    · rw [h3, excelStep_deadDomains]
      by_cases hc : (passFilter onlyAlive r && !r.alive) = true <;> simp [hc] <;> omega
    · rw [h4, excelStep_resultsLength]
      by_cases hc : passFilter onlyAlive r = true <;> simp [hc] <;> omega

/-- The HTML loop body adds one to TotalDomains exactly on a passing
row. -/
theorem htmlStep_totalDomains (decode fs : List Nat → Option (List Nat)) (onlyAlive : Bool)
    (d : TemplateData) (r : Result) :
    (htmlStep decode fs onlyAlive d r).totalDomains
      = d.totalDomains + (if passFilter onlyAlive r then 1 else 0) := by
  cases hr : r.alive <;> cases ho : onlyAlive <;> simp [htmlStep, passFilter, hr, ho]

/-- The HTML loop body adds one to AliveDomains exactly on a passing
alive row. -/
theorem htmlStep_aliveDomains (decode fs : List Nat → Option (List Nat)) (onlyAlive : Bool)
    (d : TemplateData) (r : Result) :
    (htmlStep decode fs onlyAlive d r).aliveDomains
      = d.aliveDomains + (if passFilter onlyAlive r && r.alive then 1 else 0) := by
  cases hr : r.alive <;> cases ho : onlyAlive <;> simp [htmlStep, passFilter, hr, ho]

/-- The HTML loop body never touches DeadDomains (it is derived after
the loop). -/
theorem htmlStep_deadDomains (decode fs : List Nat → Option (List Nat)) (onlyAlive : Bool)
    (d : TemplateData) (r : Result) :
    (htmlStep decode fs onlyAlive d r).deadDomains = d.deadDomains := by
  cases hr : r.alive <;> cases ho : onlyAlive <;> simp [htmlStep, hr, ho]

/-- The HTML loop body appends exactly one row per passing result. -/
theorem htmlStep_resultsLength (decode fs : List Nat → Option (List Nat)) (onlyAlive : Bool)
    (d : TemplateData) (r : Result) :
    (htmlStep decode fs onlyAlive d r).results.length
      = d.results.length + (if passFilter onlyAlive r then 1 else 0) := by
  cases hr : r.alive <;> cases ho : onlyAlive <;> simp [htmlStep, passFilter, hr, ho]

/-- Aggregate effect of the HTML loop on the TemplateData counters. -/
theorem htmlFold_stats (decode fs : List Nat → Option (List Nat)) (onlyAlive : Bool)
    (rs : List Result) (d : TemplateData) :
    ((rs.foldl (htmlStep decode fs onlyAlive) d).totalDomains
        = d.totalDomains + (rs.filter (fun r => passFilter onlyAlive r)).length)
    ∧ ((rs.foldl (htmlStep decode fs onlyAlive) d).aliveDomains
        = d.aliveDomains + (rs.filter (fun r => passFilter onlyAlive r && r.alive)).length)
    ∧ ((rs.foldl (htmlStep decode fs onlyAlive) d).deadDomains = d.deadDomains)
    ∧ ((rs.foldl (htmlStep decode fs onlyAlive) d).results.length
        = d.results.length + (rs.filter (fun r => passFilter onlyAlive r)).length) := by
  induction rs generalizing d with
  | nil => simp
  | cons r rs ih =>
    obtain ⟨h1, h2, h3, h4⟩ := ih (htmlStep decode fs onlyAlive d r)
    simp only [List.foldl_cons, List.filter_cons]
    refine ⟨?_, ?_, ?_, ?_⟩
    · rw [h1, htmlStep_totalDomains]
      by_cases hc : passFilter onlyAlive r = true <;> simp [hc] <;> omega
    · rw [h2, htmlStep_aliveDomains]
      by_cases hc : (passFilter onlyAlive r && r.alive) = true <;> simp [hc] <;> omega
    · rw [h3, htmlStep_deadDomains]
    · rw [h4, htmlStep_resultsLength]
      by_cases hc : passFilter onlyAlive r = true <;> simp [hc] <;> omega

/- ## Claims about the writers -/

/-- Claim C9: SaveResultsToFile writes the header chunk followed by
exactly one CSV row per result in input order, with no onlyAlive
filtering; the rows (see `csvRow`) write Domain, StatusText and the
page type verbatim, while Title and Message go through the
comma-to-space replacement, after which no comma byte remains. -/
theorem saveResultsToFile_spec (results : List Result) (filename : List Nat) :
    saveResultsToFile results filename = csvHeader :: results.map csvRow
    ∧ ∀ t : List Nat, (replaceAllByte t 44 32).all (fun b => !(b == 44)) = true := by
  constructor
  · rw [saveResultsToFile, foldl_push_eq_map]
    rfl
  · intro t
    rw [replaceAllByte, List.all_map, List.all_eq_true]
    intro x _
    by_cases h : x = 44 <;> simp [Function.comp, h]

/-- Claim C7: a nil PageInfo is rendered as the empty string by
SaveResultsToFile and SaveResultsToExcel and as `"-"` by
SaveResultsToSimpleHTML; the nil check precedes every access, so a
result without page info still yields its full CSV row. -/
theorem pageType_nil_safe (r : Result) (h : r.pageInfo = none) :
    filePageType r = [] ∧ excelPageType r = [] ∧ htmlPageType r = bs dashStr
    ∧ saveResultsToFile [r] [] = [csvHeader, csvRow r] := by
  refine ⟨?_, ?_, ?_, rfl⟩ <;> simp [filePageType, excelPageType, htmlPageType, h]

/-- A concrete result with no page info (all other fields empty). -/
def resultNilInfo : Result :=
  { domain := [], alive := false, status := 0, statusText := [], responseTimeNs := 0,
    pageInfo := none, title := [], screenshot := [], message := [] }

/-- Witness for C7 at the concrete nil-PageInfo result. -/
theorem pageType_nil_witness :
    filePageType resultNilInfo = [] ∧ excelPageType resultNilInfo = []
    ∧ htmlPageType resultNilInfo = bs dashStr
    ∧ saveResultsToFile [resultNilInfo] [] = [csvHeader, csvRow resultNilInfo] :=
  pageType_nil_safe resultNilInfo rfl

/-- Claim C6: the title re-encoding used by the Excel and HTML writers
leaves an empty or valid-UTF-8 title unchanged; a non-empty, invalid
title is replaced by the GBK decoding when the decoder succeeds and
kept unchanged when it fails; and in every case the row is still
processed — each writer emits exactly one template row per result that
passes the onlyAlive filter, whatever the titles are. -/
theorem titleDecode_spec (decode fs : List Nat → Option (List Nat))
    (title d : List Nat) (results : List Result) (onlyAlive : Bool) (now : List Nat) :
    (title = [] → goDecodeTitle decode title = title)
    ∧ (utf8Valid title = true → goDecodeTitle decode title = title)
    ∧ (title ≠ [] → utf8Valid title = false → decode title = none →
        goDecodeTitle decode title = title)
    ∧ (title ≠ [] → utf8Valid title = false → decode title = some d →
        goDecodeTitle decode title = d)
    ∧ ((excelTemplateData decode results onlyAlive now).results.length
        = (results.filter (fun r => passFilter onlyAlive r)).length)
    ∧ ((htmlTemplateData decode fs results onlyAlive now).results.length
        = (results.filter (fun r => passFilter onlyAlive r)).length) := by
  refine ⟨?_, ?_, ?_, ?_, ?_, ?_⟩
  · intro h
    simp [goDecodeTitle, h]
  · intro h
    simp [goDecodeTitle, h]
  · intro h1 h2 h3
    simp [goDecodeTitle, h1, h2, h3]
  · intro h1 h2 h3
    simp [goDecodeTitle, h1, h2, h3]
  · have h := (excelFold_stats decode onlyAlive results
      { totalDomains := results.length, aliveDomains := 0, deadDomains := 0,
        reportTime := now, results := [] }).2.2.2
    simpa [excelTemplateData] using h
  · have h := (htmlFold_stats decode fs onlyAlive results
      { totalDomains := 0, aliveDomains := 0, deadDomains := 0,
        reportTime := now, results := [] }).2.2.2
    simpa [htmlTemplateData] using h

/-- Witness for C6: a failing decoder keeps the malformed title
`[255]`, a succeeding decoder replaces it, and an empty title passes
through. -/
theorem titleDecode_witness :
    goDecodeTitle (fun _ => none) [255] = [255]
    ∧ goDecodeTitle (fun _ => some [97]) [255] = [97]
    ∧ goDecodeTitle (fun _ => none) [] = [] :=
  ⟨(titleDecode_spec (fun _ => none) (fun _ => none) [255] [] [] false []).2.2.1
      (by decide) (by decide) rfl,
   (titleDecode_spec (fun _ => some [97]) (fun _ => none) [255] [97] [] false []).2.2.2.1
      (by decide) (by decide) rfl,
   (titleDecode_spec (fun _ => none) (fun _ => none) [] [] [] false []).1 rfl⟩

/-- Claim C1 counterexample: one dead result exported with
`onlyAlive = true`.  SaveResultsToExcel sets `TotalDomains = 1` from
the unfiltered input but tallies `AliveDomains = DeadDomains = 0` over
the filtered rows, so `TotalDomains ≠ AliveDomains + DeadDomains`. -/
theorem templateData_counts_cex :
    ¬ ((excelTemplateData (fun _ => none) [resultNilInfo] true []).totalDomains
      = (excelTemplateData (fun _ => none) [resultNilInfo] true []).aliveDomains
        + (excelTemplateData (fun _ => none) [resultNilInfo] true []).deadDomains) := by
  decide

/-- Claim C1 as amended: `TotalDomains = AliveDomains + DeadDomains`
holds for SaveResultsToSimpleHTML on every input and flag; for
SaveResultsToExcel the tally satisfies `TotalDomains = AliveDomains +
DeadDomains + k`, where `k` is the number of non-alive input results
when `onlyAlive` is set and `0` otherwise — so the Excel invariant as
originally claimed holds exactly when `onlyAlive` is false or every
result is alive. -/
theorem templateData_counts (decode fs : List Nat → Option (List Nat))
    (results : List Result) (onlyAlive : Bool) (now : List Nat) :
    ((htmlTemplateData decode fs results onlyAlive now).totalDomains
      = (htmlTemplateData decode fs results onlyAlive now).aliveDomains
        + (htmlTemplateData decode fs results onlyAlive now).deadDomains)
    ∧ ((excelTemplateData decode results onlyAlive now).totalDomains
      = (excelTemplateData decode results onlyAlive now).aliveDomains
        + (excelTemplateData decode results onlyAlive now).deadDomains
        + (if onlyAlive then (results.filter (fun r => !r.alive)).length else 0)) := by
  constructor
  · obtain ⟨h1, h2, _, _⟩ := htmlFold_stats decode fs onlyAlive results
      { totalDomains := 0, aliveDomains := 0, deadDomains := 0,
        reportTime := now, results := [] }
    have hle : (results.filter (fun r => passFilter onlyAlive r && r.alive)).length
        ≤ (results.filter (fun r => passFilter onlyAlive r)).length :=
      length_filter_and_le (fun r => passFilter onlyAlive r) (fun r => r.alive) results
    have ht : (htmlTemplateData decode fs results onlyAlive now).totalDomains
        = (results.filter (fun r => passFilter onlyAlive r)).length := by
      simp [htmlTemplateData, h1]
    have ha : (htmlTemplateData decode fs results onlyAlive now).aliveDomains
        = (results.filter (fun r => passFilter onlyAlive r && r.alive)).length := by
      simp [htmlTemplateData, h2]
    have hd : (htmlTemplateData decode fs results onlyAlive now).deadDomains
        = (results.filter (fun r => passFilter onlyAlive r)).length
          - (results.filter (fun r => passFilter onlyAlive r && r.alive)).length := by
      simp [htmlTemplateData, h1, h2]
    rw [ht, ha, hd]
    omega
  · obtain ⟨h1, h2, h3, _⟩ := excelFold_stats decode onlyAlive results
      { totalDomains := results.length, aliveDomains := 0, deadDomains := 0,
        reportTime := now, results := [] }
    have ht : (excelTemplateData decode results onlyAlive now).totalDomains
        = results.length := by
      simp [excelTemplateData, h1]
    have ha : (excelTemplateData decode results onlyAlive now).aliveDomains
        = (results.filter (fun r => passFilter onlyAlive r && r.alive)).length := by
      simp [excelTemplateData, h2]
    have hd : (excelTemplateData decode results onlyAlive now).deadDomains
        = (results.filter (fun r => passFilter onlyAlive r && !r.alive)).length := by
      simp [excelTemplateData, h3]
    rw [ht, ha, hd]
    have hpart : (results.filter (fun r => r.alive)).length
        + (results.filter (fun r => !r.alive)).length = results.length :=
      length_filter_add_not (fun r => r.alive) results
    cases onlyAlive
    · have e1 : results.filter (fun r => passFilter false r && r.alive)
          = results.filter (fun r => r.alive) :=
        List.filter_congr (fun x _ => by simp [passFilter])
      have e2 : results.filter (fun r => passFilter false r && !r.alive)
          = results.filter (fun r => !r.alive) :=
        List.filter_congr (fun x _ => by simp [passFilter])
      rw [e1, e2]
      simp only [Bool.false_eq_true, if_false]
      omega
    · have e1 : results.filter (fun r => passFilter true r && r.alive)
          = results.filter (fun r => r.alive) :=
        List.filter_congr (fun x _ => by cases hx : x.alive <;> simp [passFilter, hx])
      have e2 : results.filter (fun r => passFilter true r && !r.alive)
          = results.filter (fun _ => false) :=
        List.filter_congr (fun x _ => by cases hx : x.alive <;> simp [passFilter, hx])
      rw [e1, e2]
      simp only [List.filter_false, List.length_nil, if_true]
      omega

/-- Claim C8: SaveResultsToHTML delegates to SaveResultsToSimpleHTML,
so the two functions agree on every result list, file name, onlyAlive
flag (and decoder, file system and clock): same created file, same BOM,
same template data. -/
theorem saveResultsToHTML_eq_simpleHTML (decode fs : List Nat → Option (List Nat))
    (results : List Result) (filename : List Nat) (onlyAlive : Bool) (now : List Nat) :
    saveResultsToHTML decode fs results filename onlyAlive now
      = saveResultsToSimpleHTML decode fs results filename onlyAlive now := rfl

/- ## Dispatcher (spec §4.4/§5/§8; its source is not under src/) -/

/-- Modelled from the spec: the run state of the Dispatcher of §4.4
(component absent from src/, which only holds the view package):
domains not yet handed to a worker slot, domains currently being
checked, and the completed results in completion order. -/
structure DState where
  pending : List (List Nat)
  running : List (List Nat)
  results : List Result
deriving DecidableEq

/-- Modelled from the spec: one scheduling step of the Dispatcher with
concurrency width `W` (§4.4, §5).  `assign` hands the next pending
domain to a free slot (at most `W` busy); `complete` finishes one
in-flight check, emitting exactly one Result for that domain — network
outcome, ordering and failures are unconstrained, so every
interleaving and every per-task outcome is covered. -/
inductive DStep (W : Nat) : DState → DState → Prop where
  | assign {s : DState} (d : List Nat) (rest : List (List Nat))
      (hp : s.pending = d :: rest) (hlt : s.running.length < W) :
      DStep W s ⟨rest, d :: s.running, s.results⟩
  | complete {s : DState} (d : List Nat) (r : Result)
      (hd : d ∈ s.running) (hrd : r.domain = d) :
      DStep W s ⟨s.pending, s.running.erase d, s.results ++ [r]⟩

/-- Modelled from the spec: the states reachable by a Dispatcher run
over the given domain list, starting with everything pending. -/
inductive DReach (W : Nat) (domains : List (List Nat)) : DState → Prop where
  | init : DReach W domains ⟨domains, [], []⟩
  | step (s t : DState) (hs : DReach W domains s) (hst : DStep W s t) :
      DReach W domains t

/-- Erasing an element present in a list and re-consing it permutes
the list. -/
theorem perm_cons_erase_beq (d : List Nat) (l : List (List Nat)) (h : d ∈ l) :
    List.Perm l (d :: l.erase d) := by
  induction l with
  | nil => cases h
  | cons x xs ih =>
    by_cases hx : x = d
    · subst hx
      rw [List.erase_cons, if_pos (by simp)]
    · rw [List.erase_cons, if_neg (by simp [hx])]
      have hmem : d ∈ xs := by
        rcases List.mem_cons.mp h with h' | h'
        · exact absurd h'.symm hx
        · exact h'
      exact (List.Perm.cons x (ih hmem)).trans (List.Perm.swap d x (xs.erase d))

/-- Scheduling invariant: pending, in-flight and completed domains
together always form the input list, as a multiset. -/
theorem dreach_invariant (W : Nat) (domains : List (List Nat)) (s : DState)
    (h : DReach W domains s) :
    (↑s.pending + ↑s.running + ↑(s.results.map Result.domain) : Multiset (List Nat))
      = (↑domains : Multiset (List Nat)) := by
  induction h with
  | init => simp
  | step s' t hs hst ih =>
    cases hst with
    | assign d rest hp hlt =>
      rw [hp] at ih
      rw [← ih]
      simp [Multiset.cons_coe, Multiset.cons_add, Multiset.add_cons]
    | complete d r hd hrd =>
      rw [Multiset.coe_eq_coe.mpr (perm_cons_erase_beq d s'.running hd)] at ih
      rw [← ih]
      simp [List.map_append, hrd, Multiset.cons_coe, Multiset.cons_add,
        Multiset.add_cons]
      refine List.Perm.append_left _ ?_
      rw [show s'.running.erase d ++ (List.map Result.domain s'.results ++ [d])
          = (s'.running.erase d ++ List.map Result.domain s'.results) ++ [d] from
        (List.append_assoc _ _ _).symm]
      exact List.perm_append_singleton d
        (s'.running.erase d ++ List.map Result.domain s'.results)

/-- Claim C4 (Dispatcher source not under src/; modelled from the
spec): for every domain list of size M and every width W ≥ 1, any
completed Dispatcher run — a reachable state with nothing pending and
nothing in flight — holds exactly M Results whose domains are a
permutation of the input list: one Result per input domain, none lost
or duplicated, for every interleaving and completion order. -/
theorem dispatcher_exactly_once (W : Nat) (domains : List (List Nat)) (s : DState)
    (hW : 1 ≤ W) (hreach : DReach W domains s)
    (hpend : s.pending = []) (hrun : s.running = []) :
    s.results.length = domains.length
    ∧ List.Perm (s.results.map Result.domain) domains := by
  have hinv := dreach_invariant W domains s hreach
  rw [hpend, hrun] at hinv
  simp only [Multiset.coe_nil, zero_add] at hinv
  have hperm : List.Perm (s.results.map Result.domain) domains :=
    Multiset.coe_eq_coe.mp hinv
  exact ⟨by simpa using hperm.length_eq, hperm⟩

/-- A concrete completed result for the C4 witness. -/
def resultA : Result :=
  { domain := [97], alive := true, status := 200, statusText := [], responseTimeNs := 0,
    pageInfo := none, title := [], screenshot := [], message := [] }

/-- Witness for C4: the two-step run of one domain with W = 1 — assign
it, complete it — reaches the terminal state with exactly one Result
for that domain. -/
theorem dispatcher_exactly_once_witness :
    (DState.mk [] [] [resultA]).results.length = [[97]].length
    ∧ List.Perm ((DState.mk [] [] [resultA]).results.map Result.domain) [[97]] := by
  have h1 : DStep 1 (DState.mk [[97]] [] []) (DState.mk [] [[97]] []) :=
    DStep.assign [97] [] rfl (by decide)
  have h2 : DStep 1 (DState.mk [] [[97]] []) (DState.mk [] [] [resultA]) := by
    have h : DStep 1 (DState.mk [] [[97]] [])
        (DState.mk [] (([[97]] : List (List Nat)).erase [97]) ([] ++ [resultA])) :=
      DStep.complete [97] resultA (by simp) rfl
    simpa using h
  have hreach : DReach 1 [[97]] (DState.mk [] [] [resultA]) :=
    DReach.step _ _ (DReach.step _ _ DReach.init h1) h2
  exact dispatcher_exactly_once 1 [[97]] (DState.mk [] [] [resultA]) (by decide)
    hreach rfl rfl

end Squirrel
